import Mathlib

/-!
Verification of the selection-persistence and bulk-selection engine of the
art-table component (`src/components/ArtTable.tsx`).

The component keeps these pieces of state (shallow embedding of the React
state hooks that the core logic reads and writes):
  * `artworks`            — the records of the currently displayed page;
  * `totalRecords`        — pagination metadata;
  * `selectedRows`        — the visible checked-rows list;
  * `persistedSelection`  — the Selection Store, a map from record id to record
                            (`Record<number, Artwork>` in the source);
  * `allFetchedArtworks`  — the Fetched-Record Cache.

Remote fetches are embedded as a pure page source `Nat → FetchResp` and the
`while` loop of `fetchAllArtworks` as a fuel-indexed recursion; a run that
would not terminate within the given fuel is `none`, every run the real loop
can perform is `some`.
-/

/-- Embedding of the `Artwork` interface (id plus display fields). -/
structure Artwork where
  id : Int
  title : String
  place_of_origin : String
  artist_display : String
  inscriptions : String
  date_start : Int
  date_end : Int
deriving DecidableEq

/-- The Selection Store: `Record<number, Artwork>` as a map from id to record. -/
abbrev SelStore := Int → Option Artwork

/-- `delete store[k]` on a JS object. -/
def SelStore.deleteKey (s : SelStore) (k : Int) : SelStore :=
  fun j => if j = k then none else s j

/-- `store[a.id] = a` on a JS object. -/
def SelStore.put (s : SelStore) (a : Artwork) : SelStore :=
  fun j => if j = a.id then some a else s j

/-- `arts.forEach((art) => delete updatedPersisted[art.id])` (lines 101). -/
def clearPage (s : SelStore) (arts : List Artwork) : SelStore :=
  arts.foldl (fun t a => t.deleteKey a.id) s

/-- `arts.forEach((art) => { updatedPersisted[art.id] = art })` (lines 104-106, 148-150). -/
def insertAll (s : SelStore) (arts : List Artwork) : SelStore :=
  arts.foldl SelStore.put s

/-- The component state the core logic touches. -/
structure ArtState where
  artworks : List Artwork
  totalRecords : Int
  selectedRows : List Artwork
  persistedSelection : SelStore
  allFetchedArtworks : List Artwork

/-- `onSelectionChange` (lines 96-110): copy the persisted map, delete every
current-page id, insert every record of the reported selection, store the
result and make the reported selection the visible checked rows. -/
def onSelectionChange (newSelection : List Artwork) (st : ArtState) : ArtState :=
  let updatedPersisted := insertAll (clearPage st.persistedSelection st.artworks) newSelection
  { st with persistedSelection := updatedPersisted, selectedRows := newSelection }

/-- The `useEffect` on `[artworks]` (lines 112-118): recompute the checked rows
as the current page filtered by membership in the Selection Store. -/
def syncSelectedRows (st : ArtState) : ArtState :=
  { st with selectedRows := st.artworks.filter (fun a => (st.persistedSelection a.id).isSome) }

/-- A successful `fetchArtworks` (lines 38-52) followed by the sync effect:
the new page's records and total are stored, then the checked rows are
recomputed.  The Selection Store is not touched. -/
def fetchArtworksOk (data : List Artwork) (total : Int) (st : ArtState) : ArtState :=
  syncSelectedRows { st with artworks := data, totalRecords := total }

/-! ### The incremental fetcher and the bulk-select handler -/

/-- A Remote Page Source response: the parsed JSON body of
`GET /artworks?page=p` (its `data` and `pagination` fields), or a fetch/parse
error. -/
inductive FetchResp where
  | ok (data : List Artwork) (current_page : Int) (total_pages : Int)
  | err
deriving DecidableEq

/-- The records a page request delivers (empty for an error). -/
def pageData (src : Nat → FetchResp) (p : Nat) : List Artwork :=
  match src p with
  | FetchResp.ok d _ _ => d
  | FetchResp.err => []

/-- Observable outcome of one `fetchAllArtworks` call: the list it returns,
the argument of `setAllFetchedArtworks` if it was called (`none` on the error
path, where the cache state is not written), and the page numbers requested
from the Remote Page Source, in order. -/
structure FetchOutcome where
  result : List Artwork
  cacheSet : Option (List Artwork)
  requested : List Nat
deriving DecidableEq

/-- The `while (fetched.length < maxNeeded)` loop of `fetchAllArtworks`
(lines 61-76) plus its exits: on normal exit the accumulated list is stored in
the cache and returned (lines 78-79); a fetch error returns `[]` without
touching the cache (lines 80-82).  `fuel` bounds the number of iterations the
run may take; `none` means the run needed more iterations than the fuel
allows. -/
def fetchLoop (src : Nat → FetchResp) (maxNeeded : Int) (fuel : Nat)
    (fetched : List Artwork) (seen : List Int) (currentPage : Nat)
    (reqs : List Nat) : Option FetchOutcome :=
  if (fetched.length : Int) < maxNeeded then
    match fuel with
    | 0 => none
    | fuel' + 1 =>
      match src currentPage with
      | FetchResp.err => some ⟨[], none, reqs ++ [currentPage]⟩
      | FetchResp.ok data cp tp =>
        let uniqueNew := data.filter (fun a => decide (a.id ∉ seen))
        let fetched' := fetched ++ uniqueNew
        let seen' := seen ++ uniqueNew.map (fun a => a.id)
        if cp ≥ tp then some ⟨fetched', some fetched', reqs ++ [currentPage]⟩
        else fetchLoop src maxNeeded fuel' fetched' seen' (currentPage + 1)
          (reqs ++ [currentPage])
  else some ⟨fetched, some fetched, reqs⟩

/-- `fetchAllArtworks` (lines 54-86): the loop starts with an empty
accumulator and seen-set at page 1. -/
def fetchAllArtworks (src : Nat → FetchResp) (maxNeeded : Int) (fuel : Nat) :
    Option FetchOutcome :=
  fetchLoop src maxNeeded fuel [] [] 1 []

/-- Observable outcome of a `handleSelectCount` call besides the new state:
whether the invalid-count toast was shown, and the pages requested from the
Remote Page Source. -/
structure HandleResult where
  invalid : Bool
  requested : List Nat
deriving DecidableEq

/-- Lines 145-153 of `handleSelectCount`: take the first `n` of the available
records, merge them into the persisted selection, recompute the visible
checked rows for the current page. -/
def commitSelection (allData : List Artwork) (n : Int) (st : ArtState) : ArtState :=
  let rowsToSelect := allData.take n.toNat
  let updatedPersisted := insertAll st.persistedSelection rowsToSelect
  { st with persistedSelection := updatedPersisted,
            selectedRows := st.artworks.filter (fun a => (updatedPersisted a.id).isSome) }

/-- `handleSelectCount` (lines 129-161): reject `n ≤ 0` with a warning and no
state change; otherwise use the cache if it already holds at least `n`
records, else run `fetchAllArtworks` (which may update the cache) and use its
result; then commit the first `n` records into the Selection Store. -/
def handleSelectCount (src : Nat → FetchResp) (fuel : Nat) (n : Int)
    (st : ArtState) : Option (ArtState × HandleResult) :=
  if n ≤ 0 then some (st, ⟨true, []⟩)
  else if (st.allFetchedArtworks.length : Int) < n then
    match fetchAllArtworks src n fuel with
    | none => none
    | some o =>
      some (commitSelection o.result n
        { st with allFetchedArtworks := o.cacheSet.getD st.allFetchedArtworks },
        ⟨false, o.requested⟩)
  else
    some (commitSelection st.allFetchedArtworks n st, ⟨false, []⟩)

/-- The `allData` list lines 139-143 of `handleSelectCount` end up using: the
cache when it already holds at least `n` records, otherwise the result of the
incremental fetch. -/
def handleAllData (src : Nat → FetchResp) (fuel : Nat) (n : Int)
    (st : ArtState) : Option (List Artwork) :=
  if (st.allFetchedArtworks.length : Int) < n then
    (fetchAllArtworks src n fuel).map (fun o => o.result)
  else some st.allFetchedArtworks

/-! ### Concrete fixtures used by witnesses and counterexamples -/

/-- A record with the given id and empty display fields. -/
def mkArt (i : Int) : Artwork := ⟨i, "", "", "", "", 0, 0⟩

/-- The empty Selection Store. -/
def emptyStore : SelStore := fun _ => none

/-- Fresh component state: empty page, no selection, empty cache. -/
def st0 : ArtState := ⟨[], 0, [], emptyStore, []⟩

/-- State whose cache already holds one record. -/
def stCache1 : ArtState := ⟨[], 0, [], emptyStore, [mkArt 1]⟩

/-- State whose cache already holds two records. -/
def stCache2 : ArtState := ⟨[], 0, [], emptyStore, [mkArt 1, mkArt 2]⟩

/-- A two-page collection of four records. -/
def srcTwoPages : Nat → FetchResp := fun p =>
  if p = 1 then FetchResp.ok [mkArt 1, mkArt 2] 1 2
  else if p = 2 then FetchResp.ok [mkArt 3, mkArt 4] 2 2
  else FetchResp.err

/-- Page 1 delivers two records of a five-page collection; page 2 fails. -/
def srcErrAt2 : Nat → FetchResp := fun p =>
  if p = 1 then FetchResp.ok [mkArt 11, mkArt 12] 1 5 else FetchResp.err

/-- A one-page collection whose single page repeats one identity. -/
def srcDupPage : Nat → FetchResp := fun p =>
  if p = 1 then FetchResp.ok [mkArt 7, mkArt 7] 1 1 else FetchResp.err

/-- A one-page collection of two records. -/
def srcOnePage : Nat → FetchResp := fun p =>
  if p = 1 then FetchResp.ok [mkArt 1, mkArt 2] 1 1 else FetchResp.err

/-- Every page request fails. -/
def srcAllErr : Nat → FetchResp := fun _ => FetchResp.err

/-- A current page of records 1 and 2, with records 1, 2 and 3 selected
(record 3 lives on another page). -/
def stPage : ArtState :=
  ⟨[mkArt 1, mkArt 2], 0, [], insertAll emptyStore [mkArt 1, mkArt 2, mkArt 3], []⟩

/-- A state in which record 1 is on the current page and selected. -/
def stSel1 : ArtState :=
  ⟨[mkArt 1], 0, [mkArt 1], insertAll emptyStore [mkArt 1], []⟩

/-! ### Selection Store lemmas -/

theorem SelStore.put_apply (s : SelStore) (a : Artwork) (k : Int) :
    s.put a k = if k = a.id then some a else s k := rfl

theorem SelStore.deleteKey_apply (s : SelStore) (a k : Int) :
    s.deleteKey a k = if k = a then none else s k := rfl

theorem clearPage_cons (s : SelStore) (a : Artwork) (arts : List Artwork) :
    clearPage s (a :: arts) = clearPage (s.deleteKey a.id) arts := rfl

theorem insertAll_nil (s : SelStore) : insertAll s [] = s := rfl

theorem insertAll_cons (s : SelStore) (a : Artwork) (arts : List Artwork) :
    insertAll s (a :: arts) = insertAll (s.put a) arts := rfl

theorem clearPage_apply (arts : List Artwork) (s : SelStore) (k : Int) :
    clearPage s arts k = if ∃ a ∈ arts, a.id = k then none else s k := by
  induction arts generalizing s with
  | nil => simp [clearPage]
  | cons a arts ih =>
    rw [clearPage_cons, ih]
    by_cases htail : ∃ b ∈ arts, b.id = k
    · simp [htail]
    · by_cases hhead : a.id = k
      · simp [htail, hhead, SelStore.deleteKey_apply]
      · have : ¬ ∃ b ∈ a :: arts, b.id = k := by
          rintro ⟨b, hb, hid⟩
          rcases List.mem_cons.mp hb with rfl | hb'
          · exact hhead hid
          · exact htail ⟨b, hb', hid⟩
        simp only [htail, if_neg this, if_neg htail, SelStore.deleteKey_apply]
        exact if_neg (fun h : k = a.id => hhead h.symm)

theorem insertAll_apply_not_mem (arts : List Artwork) (s : SelStore) (k : Int)
    (h : ∀ a ∈ arts, a.id ≠ k) : insertAll s arts k = s k := by
  induction arts generalizing s with
  | nil => rfl
  | cons a arts ih =>
    rw [insertAll_cons, ih _ (fun b hb => h b (List.mem_cons_of_mem a hb))]
    rw [SelStore.put_apply, if_neg (fun hk => h a (List.mem_cons_self a arts) hk.symm)]

theorem insertAll_isSome_iff (arts : List Artwork) (s : SelStore) (k : Int) :
    (insertAll s arts k).isSome ↔ (∃ a ∈ arts, a.id = k) ∨ (s k).isSome := by
  induction arts generalizing s with
  | nil => simp [insertAll_nil]
  | cons a arts ih =>
    rw [insertAll_cons, ih]
    constructor
    · rintro (⟨b, hb, hid⟩ | hsome)
      · exact Or.inl ⟨b, List.mem_cons_of_mem a hb, hid⟩
      · rw [SelStore.put_apply] at hsome
        by_cases hk : k = a.id
        · exact Or.inl ⟨a, List.mem_cons_self a arts, hk.symm⟩
        · rw [if_neg hk] at hsome
          exact Or.inr hsome
    · rintro (⟨b, hb, hid⟩ | hsome)
      · rcases List.mem_cons.mp hb with rfl | hb'
        · refine Or.inr ?_
          rw [SelStore.put_apply, if_pos hid.symm]
          rfl
        · exact Or.inl ⟨b, hb', hid⟩
      · by_cases hk : k = a.id
        · refine Or.inr ?_
          rw [SelStore.put_apply, if_pos hk]
          rfl
        · refine Or.inr ?_
          rw [SelStore.put_apply, if_neg hk]
          exact hsome

theorem insertAll_isSome_mono (arts : List Artwork) (s : SelStore) (k : Int)
    (h : (s k).isSome) : (insertAll s arts k).isSome :=
  (insertAll_isSome_iff arts s k).mpr (Or.inr h)

theorem insertAll_isSome_of_mem (arts : List Artwork) (s : SelStore) (a : Artwork)
    (h : a ∈ arts) : (insertAll s arts a.id).isSome :=
  (insertAll_isSome_iff arts s a.id).mpr (Or.inl ⟨a, h, rfl⟩)

theorem insertAll_apply_find (arts : List Artwork) (s : SelStore) (k : Int) :
    insertAll s arts k =
      match arts.reverse.find? (fun a => decide (a.id = k)) with
      | some a => some a
      | none => s k := by
  induction arts generalizing s with
  | nil => rfl
  | cons a arts ih =>
    rw [insertAll_cons, ih]
    rw [List.reverse_cons, List.find?_append]
    cases hfind : arts.reverse.find? (fun a => decide (a.id = k)) with
    | some b => rfl
    | none =>
      simp only [Option.none_or]
      by_cases hk : a.id = k
      · rw [SelStore.put_apply, if_pos hk.symm]
        simp [List.find?, hk]
      · rw [SelStore.put_apply, if_neg (fun h => hk h.symm)]
        simp [List.find?, hk]

theorem insertAll_idem (arts : List Artwork) (s : SelStore) :
    insertAll (insertAll s arts) arts = insertAll s arts := by
  funext k
  rw [insertAll_apply_find]
  cases hfind : arts.reverse.find? (fun a => decide (a.id = k)) with
  | some a =>
    rw [insertAll_apply_find, hfind]
  | none =>
    rw [insertAll_apply_find, hfind]

/-! ### fetchLoop step lemmas -/

theorem fetchLoop_not_need {src : Nat → FetchResp} {n : Int} {fuel : Nat}
    {f : List Artwork} {sn : List Int} {cp : Nat} {rq : List Nat}
    (h : ¬ (f.length : Int) < n) :
    fetchLoop src n fuel f sn cp rq = some ⟨f, some f, rq⟩ := by
  rw [fetchLoop.eq_def, if_neg h]

theorem fetchLoop_zero {src : Nat → FetchResp} {n : Int}
    {f : List Artwork} {sn : List Int} {cp : Nat} {rq : List Nat}
    (h : (f.length : Int) < n) :
    fetchLoop src n 0 f sn cp rq = none := by
  rw [fetchLoop.eq_def, if_pos h]

theorem fetchLoop_err {src : Nat → FetchResp} {n : Int} {fuel : Nat}
    {f : List Artwork} {sn : List Int} {cp : Nat} {rq : List Nat}
    (h : (f.length : Int) < n) (hs : src cp = FetchResp.err) :
    fetchLoop src n (fuel + 1) f sn cp rq = some ⟨[], none, rq ++ [cp]⟩ := by
  rw [fetchLoop.eq_def, if_pos h]
  simp only [hs]

theorem fetchLoop_ok_break {src : Nat → FetchResp} {n : Int} {fuel : Nat}
    {f : List Artwork} {sn : List Int} {cp : Nat} {rq : List Nat}
    {data : List Artwork} {c t : Int}
    (h : (f.length : Int) < n) (hs : src cp = FetchResp.ok data c t) (hge : c ≥ t) :
    fetchLoop src n (fuel + 1) f sn cp rq =
      some ⟨f ++ data.filter (fun a => decide (a.id ∉ sn)),
            some (f ++ data.filter (fun a => decide (a.id ∉ sn))), rq ++ [cp]⟩ := by
  rw [fetchLoop.eq_def, if_pos h]
  simp only [hs, if_pos hge]

theorem fetchLoop_ok_cont {src : Nat → FetchResp} {n : Int} {fuel : Nat}
    {f : List Artwork} {sn : List Int} {cp : Nat} {rq : List Nat}
    {data : List Artwork} {c t : Int}
    (h : (f.length : Int) < n) (hs : src cp = FetchResp.ok data c t) (hge : ¬ c ≥ t) :
    fetchLoop src n (fuel + 1) f sn cp rq =
      fetchLoop src n fuel (f ++ data.filter (fun a => decide (a.id ∉ sn)))
        (sn ++ (data.filter (fun a => decide (a.id ∉ sn))).map (fun a => a.id))
        (cp + 1) (rq ++ [cp]) := by
  rw [fetchLoop.eq_def, if_pos h]
  simp only [hs, if_neg hge]

/-! ### fetchLoop run lemmas -/

/-- Every completed run either takes a success exit (the returned list is also
stored in the cache) or the error exit (nothing stored, `[]` returned). -/
theorem fetchLoop_exit_shape {src : Nat → FetchResp} {n : Int} :
    ∀ (fuel : Nat) (f : List Artwork) (sn : List Int) (cp : Nat) (rq : List Nat)
      (o : FetchOutcome), fetchLoop src n fuel f sn cp rq = some o →
      o.cacheSet = some o.result ∨ (o.cacheSet = none ∧ o.result = []) := by
  intro fuel
  induction fuel with
  | zero =>
    intro f sn cp rq o h
    by_cases hlen : (f.length : Int) < n
    · rw [fetchLoop_zero hlen] at h
      exact Option.noConfusion h
    · rw [fetchLoop_not_need hlen] at h
      cases h
      exact Or.inl rfl
  | succ fuel ih =>
    intro f sn cp rq o h
    by_cases hlen : (f.length : Int) < n
    · cases hsrc : src cp with
      | err =>
        rw [fetchLoop_err hlen hsrc] at h
        cases h
        exact Or.inr ⟨rfl, rfl⟩
      | ok data c t =>
        by_cases hge : c ≥ t
        · rw [fetchLoop_ok_break hlen hsrc hge] at h
          cases h
          exact Or.inl rfl
        · rw [fetchLoop_ok_cont hlen hsrc hge] at h
          exact ih _ _ _ _ _ h
    · rw [fetchLoop_not_need hlen] at h
      cases h
      exact Or.inl rfl

/-- The requested pages of a run extend the already-requested list, and the
returned records are (unless discarded by the error exit) a subsequence of the
accumulator followed by the records the newly requested pages delivered. -/
theorem fetchLoop_requested_shape {src : Nat → FetchResp} {n : Int} :
    ∀ (fuel : Nat) (f : List Artwork) (sn : List Int) (cp : Nat) (rq : List Nat)
      (o : FetchOutcome), fetchLoop src n fuel f sn cp rq = some o →
      ∃ ps, o.requested = rq ++ ps ∧
        (o.result = [] ∨ List.Sublist o.result (f ++ (ps.map (pageData src)).flatten)) := by
  intro fuel
  induction fuel with
  | zero =>
    intro f sn cp rq o h
    by_cases hlen : (f.length : Int) < n
    · rw [fetchLoop_zero hlen] at h
      exact Option.noConfusion h
    · rw [fetchLoop_not_need hlen] at h
      cases h
      exact ⟨[], by simp, Or.inr (by simp)⟩
  | succ fuel ih =>
    intro f sn cp rq o h
    by_cases hlen : (f.length : Int) < n
    · cases hsrc : src cp with
      | err =>
        rw [fetchLoop_err hlen hsrc] at h
        cases h
        exact ⟨[cp], rfl, Or.inl rfl⟩
      | ok data c t =>
        by_cases hge : c ≥ t
        · rw [fetchLoop_ok_break hlen hsrc hge] at h
          cases h
          refine ⟨[cp], rfl, Or.inr ?_⟩
          simp only [List.map_cons, List.map_nil, List.flatten_cons, List.flatten_nil, pageData,
            hsrc, List.append_nil]
          exact (List.filter_sublist data).append_left f
        · rw [fetchLoop_ok_cont hlen hsrc hge] at h
          obtain ⟨ps, hreq, hres⟩ := ih _ _ _ _ _ h
          refine ⟨cp :: ps, by rw [hreq]; simp, ?_⟩
          rcases hres with hres | hres
          · exact Or.inl hres
          · refine Or.inr (hres.trans ?_)
            simp only [List.map_cons, List.flatten_cons, pageData, hsrc, List.append_assoc]
            exact ((List.filter_sublist data).append
              (List.Sublist.refl ((ps.map (pageData src)).flatten))).append_left f
    · rw [fetchLoop_not_need hlen] at h
      cases h
      exact ⟨[], by simp, Or.inr (by simp)⟩

/-- If a run's requested pages contain a failing page, the run took the error
exit: it returns `[]` and does not store a cache. -/
theorem fetchLoop_err_discards {src : Nat → FetchResp} {n : Int} :
    ∀ (fuel : Nat) (f : List Artwork) (sn : List Int) (cp : Nat) (rq : List Nat)
      (o : FetchOutcome), fetchLoop src n fuel f sn cp rq = some o →
      (∀ p ∈ rq, src p ≠ FetchResp.err) →
      (∃ p ∈ o.requested, src p = FetchResp.err) →
      o.result = [] ∧ o.cacheSet = none := by
  intro fuel
  induction fuel with
  | zero =>
    intro f sn cp rq o h hok hex
    by_cases hlen : (f.length : Int) < n
    · rw [fetchLoop_zero hlen] at h
      exact Option.noConfusion h
    · rw [fetchLoop_not_need hlen] at h
      cases h
      obtain ⟨p, hp, hperr⟩ := hex
      exact absurd hperr (hok p hp)
  | succ fuel ih =>
    intro f sn cp rq o h hok hex
    by_cases hlen : (f.length : Int) < n
    · cases hsrc : src cp with
      | err =>
        rw [fetchLoop_err hlen hsrc] at h
        cases h
        exact ⟨rfl, rfl⟩
      | ok data c t =>
        by_cases hge : c ≥ t
        · rw [fetchLoop_ok_break hlen hsrc hge] at h
          cases h
          obtain ⟨p, hp, hperr⟩ := hex
          rcases List.mem_append.mp hp with hp' | hp'
          · exact absurd hperr (hok p hp')
          · rw [List.mem_singleton.mp hp'] at hperr
            rw [hsrc] at hperr
            exact FetchResp.noConfusion hperr
        · rw [fetchLoop_ok_cont hlen hsrc hge] at h
          refine ih _ _ _ _ _ h ?_ hex
          intro p hp
          rcases List.mem_append.mp hp with hp' | hp'
          · exact hok p hp'
          · rw [List.mem_singleton.mp hp', hsrc]
            exact fun hcontra => FetchResp.noConfusion hcontra
    · rw [fetchLoop_not_need hlen] at h
      cases h
      obtain ⟨p, hp, hperr⟩ := hex
      exact absurd hperr (hok p hp)

/-- On a success exit the returned list extends the accumulator it started
from. -/
theorem fetchLoop_result_extends {src : Nat → FetchResp} {n : Int} :
    ∀ (fuel : Nat) (f : List Artwork) (sn : List Int) (cp : Nat) (rq : List Nat)
      (o : FetchOutcome), fetchLoop src n fuel f sn cp rq = some o →
      o.cacheSet = some o.result → f <+: o.result := by
  intro fuel
  induction fuel with
  | zero =>
    intro f sn cp rq o h hsucc
    by_cases hlen : (f.length : Int) < n
    · rw [fetchLoop_zero hlen] at h
      exact Option.noConfusion h
    · rw [fetchLoop_not_need hlen] at h
      cases h
      exact ⟨[], List.append_nil f⟩
  | succ fuel ih =>
    intro f sn cp rq o h hsucc
    by_cases hlen : (f.length : Int) < n
    · cases hsrc : src cp with
      | err =>
        rw [fetchLoop_err hlen hsrc] at h
        cases h
        exact Option.noConfusion hsucc
      | ok data c t =>
        by_cases hge : c ≥ t
        · rw [fetchLoop_ok_break hlen hsrc hge] at h
          cases h
          exact ⟨data.filter (fun a => decide (a.id ∉ sn)), rfl⟩
        · rw [fetchLoop_ok_cont hlen hsrc hge] at h
          obtain ⟨tail, htail⟩ := ih _ _ _ _ _ h hsucc
          exact ⟨data.filter (fun a => decide (a.id ∉ sn)) ++ tail,
            by rw [← List.append_assoc, htail]⟩
    · rw [fetchLoop_not_need hlen] at h
      cases h
      exact ⟨[], List.append_nil f⟩

/-- Two runs over the same source from the same position, the first asked for
at most as many records as the second: if both take a success exit, the first
run's list is a prefix of the second's. -/
theorem fetchLoop_mono {src : Nat → FetchResp} {m n : Int} (hmn : m ≤ n) :
    ∀ (fuel : Nat) (f : List Artwork) (sn : List Int) (cp : Nat) (rq : List Nat)
      (o₁ o₂ : FetchOutcome),
      fetchLoop src m fuel f sn cp rq = some o₁ → o₁.cacheSet = some o₁.result →
      fetchLoop src n fuel f sn cp rq = some o₂ → o₂.cacheSet = some o₂.result →
      o₁.result <+: o₂.result := by
  intro fuel
  induction fuel with
  | zero =>
    intro f sn cp rq o₁ o₂ h₁ hs₁ h₂ hs₂
    by_cases hn : (f.length : Int) < n
    · rw [fetchLoop_zero hn] at h₂
      exact Option.noConfusion h₂
    · have hm : ¬ (f.length : Int) < m := fun hlt => hn (lt_of_lt_of_le hlt hmn)
      rw [fetchLoop_not_need hm] at h₁
      rw [fetchLoop_not_need hn] at h₂
      cases h₁
      cases h₂
      exact ⟨[], List.append_nil f⟩
  | succ fuel ih =>
    intro f sn cp rq o₁ o₂ h₁ hs₁ h₂ hs₂
    by_cases hn : (f.length : Int) < n
    · by_cases hm : (f.length : Int) < m
      · cases hsrc : src cp with
        | err =>
          rw [fetchLoop_err hm hsrc] at h₁
          cases h₁
          exact Option.noConfusion hs₁
        | ok data c t =>
          by_cases hge : c ≥ t
          · rw [fetchLoop_ok_break hm hsrc hge] at h₁
            rw [fetchLoop_ok_break hn hsrc hge] at h₂
            cases h₁
            cases h₂
            exact ⟨[], List.append_nil _⟩
          · rw [fetchLoop_ok_cont hm hsrc hge] at h₁
            rw [fetchLoop_ok_cont hn hsrc hge] at h₂
            exact ih _ _ _ _ _ _ h₁ hs₁ h₂ hs₂
      · rw [fetchLoop_not_need hm] at h₁
        cases h₁
        exact fetchLoop_result_extends _ _ _ _ _ _ h₂ hs₂
    · have hm : ¬ (f.length : Int) < m := fun hlt => hn (lt_of_lt_of_le hlt hmn)
      rw [fetchLoop_not_need hm] at h₁
      rw [fetchLoop_not_need hn] at h₂
      cases h₁
      cases h₂
      exact ⟨[], List.append_nil f⟩

/-- If every requested page delivered records with pairwise distinct ids, a
completed run's list has pairwise distinct ids, given that the accumulator and
seen-set agree and are duplicate-free. -/
theorem fetchLoop_nodup {src : Nat → FetchResp} {n : Int} :
    ∀ (fuel : Nat) (f : List Artwork) (sn : List Int) (cp : Nat) (rq : List Nat)
      (o : FetchOutcome), fetchLoop src n fuel f sn cp rq = some o →
      (∀ p ∈ o.requested, ((pageData src p).map (fun a => a.id)).Nodup) →
      (f.map (fun a => a.id)).Nodup →
      (∀ i : Int, i ∈ sn ↔ i ∈ f.map (fun a => a.id)) →
      (o.result.map (fun a => a.id)).Nodup := by
  intro fuel
  induction fuel with
  | zero =>
    intro f sn cp rq o h hpages hnd hseen
    by_cases hlen : (f.length : Int) < n
    · rw [fetchLoop_zero hlen] at h
      exact Option.noConfusion h
    · rw [fetchLoop_not_need hlen] at h
      cases h
      exact hnd
  | succ fuel ih =>
    intro f sn cp rq o h hpages hnd hseen
    by_cases hlen : (f.length : Int) < n
    · cases hsrc : src cp with
      | err =>
        rw [fetchLoop_err hlen hsrc] at h
        cases h
        simp
      | ok data c t =>
        have hdata : ((pageData src cp).map (fun a => a.id)).Nodup → (data.map (fun a => a.id)).Nodup := by
          rw [pageData, hsrc]
          exact id
        have hstep : ∀ (hd : (data.map (fun a => a.id)).Nodup),
            ((f ++ data.filter (fun a => decide (a.id ∉ sn))).map (fun a => a.id)).Nodup := by
          intro hd
          rw [List.map_append]
          refine hnd.append (((List.filter_sublist data).map (fun a => a.id)).nodup hd) ?_
          intro i hif hiu
          obtain ⟨a, ha, hai⟩ := List.mem_map.mp hiu
          have := (List.mem_filter.mp ha).2
          rw [decide_eq_true_iff] at this
          exact this ((hseen a.id).mpr (hai ▸ hif))
        have hseenstep : ∀ i : Int,
            i ∈ sn ++ (data.filter (fun a => decide (a.id ∉ sn))).map (fun a => a.id) ↔
            i ∈ (f ++ data.filter (fun a => decide (a.id ∉ sn))).map (fun a => a.id) := by
          intro i
          rw [List.map_append, List.mem_append, List.mem_append, hseen]
        by_cases hge : c ≥ t
        · rw [fetchLoop_ok_break hlen hsrc hge] at h
          cases h
          have hcp : cp ∈ rq ++ [cp] := List.mem_append.mpr (Or.inr (List.mem_singleton.mpr rfl))
          exact hstep (hdata (hpages cp hcp))
        · rw [fetchLoop_ok_cont hlen hsrc hge] at h
          obtain ⟨ps, hreq, -⟩ := fetchLoop_requested_shape _ _ _ _ _ _ h
          have hcp : cp ∈ o.requested := by
            rw [hreq]
            exact List.mem_append.mpr (Or.inl (List.mem_append.mpr (Or.inr (List.mem_singleton.mpr rfl))))
          exact ih _ _ _ _ _ h hpages (hstep (hdata (hpages cp hcp))) hseenstep
    · rw [fetchLoop_not_need hlen] at h
      cases h
      exact hnd

/-! ### handleSelectCount branch lemmas -/

theorem commitSelection_persisted (allData : List Artwork) (n : Int) (st : ArtState) :
    (commitSelection allData n st).persistedSelection =
      insertAll st.persistedSelection (allData.take n.toNat) := rfl

theorem commitSelection_cache (allData : List Artwork) (n : Int) (st : ArtState) :
    (commitSelection allData n st).allFetchedArtworks = st.allFetchedArtworks := rfl

theorem handleSelectCount_nonpos {src : Nat → FetchResp} {fuel : Nat} {n : Int}
    {st : ArtState} (hn : n ≤ 0) :
    handleSelectCount src fuel n st = some (st, ⟨true, []⟩) := by
  rw [handleSelectCount, if_pos hn]

theorem handleSelectCount_cached {src : Nat → FetchResp} {fuel : Nat} {n : Int}
    {st : ArtState} (hn : ¬ n ≤ 0)
    (hc : ¬ (st.allFetchedArtworks.length : Int) < n) :
    handleSelectCount src fuel n st =
      some (commitSelection st.allFetchedArtworks n st, ⟨false, []⟩) := by
  rw [handleSelectCount, if_neg hn, if_neg hc]

theorem handleSelectCount_fetch {src : Nat → FetchResp} {fuel : Nat} {n : Int}
    {st : ArtState} {o : FetchOutcome} (hn : ¬ n ≤ 0)
    (hc : (st.allFetchedArtworks.length : Int) < n)
    (hf : fetchAllArtworks src n fuel = some o) :
    handleSelectCount src fuel n st =
      some (commitSelection o.result n
        { st with allFetchedArtworks := o.cacheSet.getD st.allFetchedArtworks },
        ⟨false, o.requested⟩) := by
  rw [handleSelectCount, if_neg hn, if_pos hc, hf]

theorem handleSelectCount_fetch_none {src : Nat → FetchResp} {fuel : Nat} {n : Int}
    {st : ArtState} (hn : ¬ n ≤ 0)
    (hc : (st.allFetchedArtworks.length : Int) < n)
    (hf : fetchAllArtworks src n fuel = none) :
    handleSelectCount src fuel n st = none := by
  rw [handleSelectCount, if_neg hn, if_pos hc, hf]

/-- Every completed bulk-select with a positive count commits the first `n`
records of the `allData` list of lines 139-143 into the Selection Store. -/
theorem handleSelectCount_spec {src : Nat → FetchResp} {fuel : Nat} {n : Int}
    {st st' : ArtState} {r : HandleResult} (hn : 0 < n)
    (h : handleSelectCount src fuel n st = some (st', r)) :
    ∃ avail, handleAllData src fuel n st = some avail ∧
      st'.persistedSelection = insertAll st.persistedSelection (avail.take n.toNat) := by
  have hn' : ¬ n ≤ 0 := not_le.mpr hn
  by_cases hc : (st.allFetchedArtworks.length : Int) < n
  · cases hf : fetchAllArtworks src n fuel with
    | none =>
      rw [handleSelectCount_fetch_none hn' hc hf] at h
      exact Option.noConfusion h
    | some o =>
      rw [handleSelectCount_fetch hn' hc hf] at h
      simp only [Option.some.injEq, Prod.mk.injEq] at h
      obtain ⟨rfl, rfl⟩ := h
      refine ⟨o.result, ?_, rfl⟩
      rw [handleAllData, if_pos hc, hf]
      rfl
  · rw [handleSelectCount_cached hn' hc] at h
    simp only [Option.some.injEq, Prod.mk.injEq] at h
    obtain ⟨rfl, rfl⟩ := h
    refine ⟨st.allFetchedArtworks, ?_, rfl⟩
    rw [handleAllData, if_neg hc]

/-! ### Claim theorems -/

/-- C1: after `onSelectionChange`, the Selection Store contains a current-page
record's identity iff that record is in the reported new visible selection,
and every entry whose key is not a current-page identity is exactly as it was
before the call. -/
theorem onSelectionChange_mirrors_page (newSel : List Artwork) (st : ArtState)
    (hsub : ∀ a ∈ newSel, a ∈ st.artworks)
    (hnd : (st.artworks.map (fun a => a.id)).Nodup) :
    (∀ r ∈ st.artworks,
      (((onSelectionChange newSel st).persistedSelection) r.id).isSome ↔ r ∈ newSel)
    ∧ (∀ k : Int, (∀ a ∈ st.artworks, a.id ≠ k) →
      (onSelectionChange newSel st).persistedSelection k = st.persistedSelection k) := by
  constructor
  · intro r hr
    show (insertAll (clearPage st.persistedSelection st.artworks) newSel r.id).isSome ↔ r ∈ newSel
    rw [insertAll_isSome_iff, clearPage_apply, if_pos ⟨r, hr, rfl⟩]
    simp only [Option.isSome_none, Bool.false_eq_true, or_false]
    constructor
    · rintro ⟨a, ha, hid⟩
      have haeq : a = r := List.inj_on_of_nodup_map hnd (hsub a ha) hr hid
      rwa [haeq] at ha
    · intro hrn
      exact ⟨r, hrn, rfl⟩
  · intro k hk
    show insertAll (clearPage st.persistedSelection st.artworks) newSel k = st.persistedSelection k
    rw [insertAll_apply_not_mem _ _ _ (fun a ha => hk a (hsub a ha)), clearPage_apply, if_neg]
    rintro ⟨a, ha, hid⟩
    exact hk a ha hid

theorem onSelectionChange_mirrors_page_witness :
    ((∀ a ∈ [mkArt 1], a ∈ stPage.artworks)
      ∧ (stPage.artworks.map (fun a => a.id)).Nodup)
    ∧ (((onSelectionChange [mkArt 1] stPage).persistedSelection (mkArt 2).id).isSome
        ↔ mkArt 2 ∈ [mkArt 1]) :=
  ⟨⟨by decide, by decide⟩,
    (onSelectionChange_mirrors_page [mkArt 1] stPage (by decide) (by decide)).1
      (mkArt 2) (by decide)⟩

/-- C4: a bulk-select with a non-positive count is rejected with the
invalid-count signal, no page is requested, and the whole state — Selection
Store and Fetched-Record Cache included — is exactly as before. -/
theorem handleSelectCount_rejects_nonpositive (src : Nat → FetchResp) (fuel : Nat)
    (n : Int) (st : ArtState) (hn : n ≤ 0) :
    handleSelectCount src fuel n st = some (st, ⟨true, []⟩) :=
  handleSelectCount_nonpos hn

theorem handleSelectCount_rejects_nonpositive_witness :
    ((0 : Int) ≤ 0)
    ∧ handleSelectCount srcAllErr 3 0 st0 = some (st0, ⟨true, []⟩) :=
  ⟨by decide, handleSelectCount_rejects_nonpositive srcAllErr 3 0 st0 (by decide)⟩

/-- C5: when the cache already holds at least `n` records, a bulk-select of
`n` completes with zero page requests and leaves the cache unchanged. -/
theorem handleSelectCount_cache_sufficient_no_fetch (src : Nat → FetchResp) (fuel : Nat)
    (n : Int) (st : ArtState) (h : n ≤ (st.allFetchedArtworks.length : Int)) :
    ∃ st' r, handleSelectCount src fuel n st = some (st', r) ∧ r.requested = []
      ∧ st'.allFetchedArtworks = st.allFetchedArtworks := by
  by_cases hn : n ≤ 0
  · exact ⟨st, ⟨true, []⟩, handleSelectCount_nonpos hn, rfl, rfl⟩
  · have hc : ¬ (st.allFetchedArtworks.length : Int) < n := not_lt.mpr h
    exact ⟨_, _, handleSelectCount_cached hn hc, rfl, commitSelection_cache _ _ _⟩

theorem handleSelectCount_cache_sufficient_no_fetch_witness :
    ((2 : Int) ≤ (stCache2.allFetchedArtworks.length : Int))
    ∧ ∃ st' r, handleSelectCount srcAllErr 3 2 stCache2 = some (st', r)
      ∧ r.requested = [] ∧ st'.allFetchedArtworks = stCache2.allFetchedArtworks :=
  ⟨by decide, handleSelectCount_cache_sufficient_no_fetch srcAllErr 3 2 stCache2 (by decide)⟩

/-- C8: a page load recomputes the visible checked rows as exactly the records
of the newly loaded page whose identity is in the Selection Store, leaves the
Selection Store unchanged, and hence a record selected on one page is still
checked after loading another page and returning. -/
theorem fetchArtworksOk_recomputes (data : List Artwork) (total : Int) (st : ArtState) :
    (fetchArtworksOk data total st).selectedRows
        = data.filter (fun a => (st.persistedSelection a.id).isSome)
    ∧ (fetchArtworksOk data total st).persistedSelection = st.persistedSelection
    ∧ ∀ (d₂ : List Artwork) (t₂ : Int) (x : Artwork), x ∈ data →
        (st.persistedSelection x.id).isSome →
        x ∈ (fetchArtworksOk data total (fetchArtworksOk d₂ t₂ st)).selectedRows := by
  refine ⟨rfl, rfl, ?_⟩
  intro d₂ t₂ x hx hsome
  show x ∈ data.filter (fun a => (st.persistedSelection a.id).isSome)
  exact List.mem_filter.mpr ⟨hx, hsome⟩

theorem fetchArtworksOk_recomputes_witness :
    (mkArt 1 ∈ [mkArt 1] ∧ (stSel1.persistedSelection (mkArt 1).id).isSome)
    ∧ mkArt 1 ∈ (fetchArtworksOk [mkArt 1] 4 (fetchArtworksOk [mkArt 2] 4 stSel1)).selectedRows :=
  ⟨⟨by decide, by decide⟩,
    (fetchArtworksOk_recomputes [mkArt 1] 4 stSel1).2.2 [mkArt 2] 4 (mkArt 1)
      (by decide) (by decide)⟩

/-- C2: a completed bulk-select of a positive `n` puts every one of the first
`min(n, available)` fetched records into the Selection Store and keeps every
previously selected identity selected. -/
theorem handleSelectCount_selects_topN (src : Nat → FetchResp) (fuel : Nat) (n : Int)
    (st st' : ArtState) (r : HandleResult) (hn : 0 < n)
    (h : handleSelectCount src fuel n st = some (st', r)) :
    ∃ avail, handleAllData src fuel n st = some avail
      ∧ (∀ a ∈ avail.take n.toNat, (st'.persistedSelection a.id).isSome)
      ∧ (∀ k : Int, (st.persistedSelection k).isSome → (st'.persistedSelection k).isSome) := by
  obtain ⟨avail, hav, hpers⟩ := handleSelectCount_spec hn h
  refine ⟨avail, hav, ?_, ?_⟩
  · intro a ha
    rw [hpers]
    exact insertAll_isSome_of_mem _ _ _ ha
  · intro k hk
    rw [hpers]
    exact insertAll_isSome_mono _ _ _ hk

theorem handleSelectCount_selects_topN_witness :
    ((0 : Int) < 3)
    ∧ ∃ st' r, handleSelectCount srcTwoPages 9 3 st0 = some (st', r)
      ∧ ∃ avail, handleAllData srcTwoPages 9 3 st0 = some avail
        ∧ (∀ a ∈ avail.take (3 : Int).toNat, (st'.persistedSelection a.id).isSome)
        ∧ (∀ k : Int, (st0.persistedSelection k).isSome → (st'.persistedSelection k).isSome) :=
  ⟨by decide, _, _, rfl,
    handleSelectCount_selects_topN srcTwoPages 9 3 st0 _ _ (by decide) rfl⟩

/-- C10: when the bulk fetch fails (so the fetcher yields the empty list and
does not store a cache), the completed bulk-select leaves both the Selection
Store and the Fetched-Record Cache exactly unchanged. -/
theorem handleSelectCount_failed_fetch_frame (src : Nat → FetchResp) (fuel : Nat)
    (n : Int) (st : ArtState) (o : FetchOutcome)
    (hc : (st.allFetchedArtworks.length : Int) < n)
    (hf : fetchAllArtworks src n fuel = some o)
    (herr : o.cacheSet = none) :
    ∃ st' r, handleSelectCount src fuel n st = some (st', r)
      ∧ st'.persistedSelection = st.persistedSelection
      ∧ st'.allFetchedArtworks = st.allFetchedArtworks := by
  have hn : ¬ n ≤ 0 := by
    intro hle
    have : (0 : Int) ≤ (st.allFetchedArtworks.length : Int) := Int.ofNat_nonneg _
    omega
  have hres : o.result = [] := by
    rcases fetchLoop_exit_shape fuel [] [] 1 [] o hf with hsucc | ⟨-, hres⟩
    · rw [herr] at hsucc
      exact Option.noConfusion hsucc
    · exact hres
  refine ⟨_, _, handleSelectCount_fetch hn hc hf, ?_, ?_⟩
  · rw [commitSelection_persisted, hres]
    simp [insertAll_nil]
  · rw [commitSelection_cache]
    show o.cacheSet.getD st.allFetchedArtworks = st.allFetchedArtworks
    rw [herr]
    rfl

theorem handleSelectCount_failed_fetch_frame_witness :
    ((st0.allFetchedArtworks.length : Int) < 1
      ∧ fetchAllArtworks srcAllErr 1 5 = some ⟨[], none, [1]⟩
      ∧ (⟨[], none, [1]⟩ : FetchOutcome).cacheSet = none)
    ∧ ∃ st' r, handleSelectCount srcAllErr 5 1 st0 = some (st', r)
      ∧ st'.persistedSelection = st0.persistedSelection
      ∧ st'.allFetchedArtworks = st0.allFetchedArtworks :=
  ⟨⟨by decide, by decide, rfl⟩,
    handleSelectCount_failed_fetch_frame srcAllErr 5 1 st0 ⟨[], none, [1]⟩
      (by decide) (by decide) rfl⟩

/-- C3 counterexample: on the source that fails at page 2, a bulk fetch for 5
returns `[]` even though the two records page 1 delivered had already been
accumulated and deduplicated (the same source with a cap of 2 returns exactly
those two records). -/
theorem fetchAllArtworks_error_discards_cex :
    (fetchAllArtworks srcErrAt2 5 10).map (fun o => o.result) = some []
    ∧ (fetchAllArtworks srcErrAt2 2 10).map (fun o => o.result) = some [mkArt 11, mkArt 12]
    ∧ srcErrAt2 2 = FetchResp.err := by decide

/-- C3 (amended): a bulk fetch whose run hits a failing page returns the empty
list — discarding the records accumulated so far — and does not store a
cache, so the bulk-select commits nothing from this fetch. -/
theorem fetchAllArtworks_error_returns_empty (src : Nat → FetchResp) (n : Int) (fuel : Nat)
    (o : FetchOutcome) (h : fetchAllArtworks src n fuel = some o)
    (herr : ∃ p ∈ o.requested, src p = FetchResp.err) :
    o.result = [] ∧ o.cacheSet = none :=
  fetchLoop_err_discards fuel [] [] 1 [] o h
    (fun p hp => absurd hp (List.not_mem_nil p)) herr

theorem fetchAllArtworks_error_returns_empty_witness :
    (fetchAllArtworks srcErrAt2 5 10 = some ⟨[], none, [1, 2]⟩
      ∧ ∃ p ∈ (⟨[], none, [1, 2]⟩ : FetchOutcome).requested, srcErrAt2 p = FetchResp.err)
    ∧ ((⟨[], none, [1, 2]⟩ : FetchOutcome).result = []
      ∧ (⟨[], none, [1, 2]⟩ : FetchOutcome).cacheSet = none) :=
  ⟨⟨by decide, by decide⟩,
    fetchAllArtworks_error_returns_empty srcErrAt2 5 10 ⟨[], none, [1, 2]⟩
      (by decide) (by decide)⟩

/-- C9 counterexample: a page that repeats one identity within itself defeats
the deduplication — the accumulated sequence carries id 7 twice. -/
theorem fetchAllArtworks_within_page_dup_cex :
    (fetchAllArtworks srcDupPage 2 5).map (fun o => o.result.map (fun a => a.id)) = some [7, 7]
    ∧ ¬ ([(7 : Int), 7].Nodup) := by decide

/-- C9 (amended): provided every requested page delivers records with pairwise
distinct identities, a completed incremental fetch accumulates each identity
at most once and in first-arrival order (its result is a subsequence of the
requested pages' records in request order). -/
theorem fetchAllArtworks_dedups_across_pages (src : Nat → FetchResp) (n : Int) (fuel : Nat)
    (o : FetchOutcome) (h : fetchAllArtworks src n fuel = some o)
    (hpages : ∀ p ∈ o.requested, ((pageData src p).map (fun a => a.id)).Nodup) :
    ((o.result.map (fun a => a.id)).Nodup)
    ∧ List.Sublist o.result ((o.requested.map (pageData src)).flatten) := by
  constructor
  · exact fetchLoop_nodup fuel [] [] 1 [] o h hpages (by simp) (by simp)
  · obtain ⟨ps, hps, hres⟩ := fetchLoop_requested_shape fuel [] [] 1 [] o h
    rcases hres with hres | hres
    · rw [hres]
      exact List.nil_sublist _
    · rw [hps]
      simpa using hres

theorem fetchAllArtworks_dedups_across_pages_witness :
    (fetchAllArtworks srcTwoPages 3 9
        = some ⟨[mkArt 1, mkArt 2, mkArt 3, mkArt 4],
                some [mkArt 1, mkArt 2, mkArt 3, mkArt 4], [1, 2]⟩
      ∧ ∀ p ∈ (⟨[mkArt 1, mkArt 2, mkArt 3, mkArt 4],
                some [mkArt 1, mkArt 2, mkArt 3, mkArt 4], [1, 2]⟩ : FetchOutcome).requested,
          ((pageData srcTwoPages p).map (fun a => a.id)).Nodup)
    ∧ (([mkArt 1, mkArt 2, mkArt 3, mkArt 4].map (fun a => a.id)).Nodup
      ∧ List.Sublist [mkArt 1, mkArt 2, mkArt 3, mkArt 4]
          (([1, 2].map (pageData srcTwoPages)).flatten)) :=
  ⟨⟨by decide, by decide⟩,
    fetchAllArtworks_dedups_across_pages srcTwoPages 3 9
      ⟨[mkArt 1, mkArt 2, mkArt 3, mkArt 4],
        some [mkArt 1, mkArt 2, mkArt 3, mkArt 4], [1, 2]⟩
      (by decide) (by decide)⟩

/-- C6 counterexample: with one record already cached, a bulk-select for 2
requests page 1 again, and page 1 contains the already-cached record — cached
records are re-fetched from the Remote Page Source. -/
theorem handleSelectCount_refetches_cached_cex :
    (handleSelectCount srcOnePage 5 2 stCache1).map (fun x => x.2.requested) = some [1]
    ∧ mkArt 1 ∈ pageData srcOnePage 1
    ∧ mkArt 1 ∈ stCache1.allFetchedArtworks := by decide

/-- C6 (amended): a bulk-select needing more records than the cache holds
rebuilds the cache from page 1, re-fetching already-cached records; but under
unchanged Remote Page Source responses a smaller successful accumulation is a
prefix of any larger one, so the rebuilt cache keeps the previously cached
records in place, deduplicated by identity. -/
theorem fetchAllArtworks_rebuild_extends (src : Nat → FetchResp) (m n : Int) (fuel : Nat)
    (o₁ o₂ : FetchOutcome) (hmn : m ≤ n)
    (h₁ : fetchAllArtworks src m fuel = some o₁) (hs₁ : o₁.cacheSet = some o₁.result)
    (h₂ : fetchAllArtworks src n fuel = some o₂) (hs₂ : o₂.cacheSet = some o₂.result) :
    o₁.result <+: o₂.result :=
  fetchLoop_mono hmn fuel [] [] 1 [] o₁ o₂ h₁ hs₁ h₂ hs₂

theorem fetchAllArtworks_rebuild_extends_witness :
    ((1 : Int) ≤ 3
      ∧ fetchAllArtworks srcTwoPages 1 9 = some ⟨[mkArt 1, mkArt 2], some [mkArt 1, mkArt 2], [1]⟩
      ∧ fetchAllArtworks srcTwoPages 3 9
          = some ⟨[mkArt 1, mkArt 2, mkArt 3, mkArt 4],
                  some [mkArt 1, mkArt 2, mkArt 3, mkArt 4], [1, 2]⟩)
    ∧ [mkArt 1, mkArt 2] <+: [mkArt 1, mkArt 2, mkArt 3, mkArt 4] :=
  ⟨⟨by decide, by decide, by decide⟩,
    fetchAllArtworks_rebuild_extends srcTwoPages 1 3 9
      ⟨[mkArt 1, mkArt 2], some [mkArt 1, mkArt 2], [1]⟩
      ⟨[mkArt 1, mkArt 2, mkArt 3, mkArt 4],
        some [mkArt 1, mkArt 2, mkArt 3, mkArt 4], [1, 2]⟩
      (by decide) (by decide) rfl (by decide) rfl⟩

/-- C7: performing a bulk-select of `n` twice in immediate succession over the
same Remote Page Source leaves the Selection Store exactly as after performing
it once. -/
theorem handleSelectCount_idempotent (src : Nat → FetchResp) (fuel : Nat) (n : Int)
    (st st₁ : ArtState) (r₁ : HandleResult)
    (h : handleSelectCount src fuel n st = some (st₁, r₁)) :
    ∃ st₂ r₂, handleSelectCount src fuel n st₁ = some (st₂, r₂)
      ∧ st₂.persistedSelection = st₁.persistedSelection := by
  by_cases hn : n ≤ 0
  · rw [handleSelectCount_nonpos hn] at h
    simp only [Option.some.injEq, Prod.mk.injEq] at h
    obtain ⟨rfl, rfl⟩ := h
    exact ⟨st, ⟨true, []⟩, handleSelectCount_nonpos hn, rfl⟩
  · by_cases hc : (st.allFetchedArtworks.length : Int) < n
    · cases hf : fetchAllArtworks src n fuel with
      | none =>
        rw [handleSelectCount_fetch_none hn hc hf] at h
        exact Option.noConfusion h
      | some o =>
        rw [handleSelectCount_fetch hn hc hf] at h
        simp only [Option.some.injEq, Prod.mk.injEq] at h
        obtain ⟨rfl, rfl⟩ := h
        rcases fetchLoop_exit_shape fuel [] [] 1 [] o hf with hsucc | ⟨hnone, hres⟩
        · by_cases hc₂ : ((commitSelection o.result n
              { st with allFetchedArtworks := o.cacheSet.getD st.allFetchedArtworks
                }).allFetchedArtworks.length : Int) < n
          · refine ⟨_, _, handleSelectCount_fetch hn hc₂ hf, ?_⟩
            show insertAll (insertAll st.persistedSelection (o.result.take n.toNat))
                (o.result.take n.toNat)
              = insertAll st.persistedSelection (o.result.take n.toNat)
            exact insertAll_idem _ _
          · have hcache : (commitSelection o.result n
                { st with allFetchedArtworks := o.cacheSet.getD st.allFetchedArtworks
                  }).allFetchedArtworks = o.result := by
              rw [commitSelection_cache]
              show o.cacheSet.getD st.allFetchedArtworks = o.result
              rw [hsucc]
              rfl
            refine ⟨_, _, handleSelectCount_cached hn hc₂, ?_⟩
            rw [commitSelection_persisted, hcache]
            show insertAll (insertAll st.persistedSelection (o.result.take n.toNat))
                (o.result.take n.toNat)
              = insertAll st.persistedSelection (o.result.take n.toNat)
            exact insertAll_idem _ _
        · have hcache : (commitSelection o.result n
              { st with allFetchedArtworks := o.cacheSet.getD st.allFetchedArtworks
                }).allFetchedArtworks = st.allFetchedArtworks := by
            rw [commitSelection_cache]
            show o.cacheSet.getD st.allFetchedArtworks = st.allFetchedArtworks
            rw [hnone]
            rfl
          have hc₂ : ((commitSelection o.result n
              { st with allFetchedArtworks := o.cacheSet.getD st.allFetchedArtworks
                }).allFetchedArtworks.length : Int) < n := by
            rw [hcache]
            exact hc
          refine ⟨_, _, handleSelectCount_fetch hn hc₂ hf, ?_⟩
          rw [commitSelection_persisted, hres]
          simp only [List.take_nil]
          rw [insertAll_nil]
    · rw [handleSelectCount_cached hn hc] at h
      simp only [Option.some.injEq, Prod.mk.injEq] at h
      obtain ⟨rfl, rfl⟩ := h
      refine ⟨_, _, handleSelectCount_cached hn hc, ?_⟩
      show insertAll (insertAll st.persistedSelection (st.allFetchedArtworks.take n.toNat))
          (st.allFetchedArtworks.take n.toNat)
        = insertAll st.persistedSelection (st.allFetchedArtworks.take n.toNat)
      exact insertAll_idem _ _

theorem handleSelectCount_idempotent_witness :
    ∃ st₁ r₁, handleSelectCount srcTwoPages 9 2 st0 = some (st₁, r₁)
      ∧ ∃ st₂ r₂, handleSelectCount srcTwoPages 9 2 st₁ = some (st₂, r₂)
        ∧ st₂.persistedSelection = st₁.persistedSelection :=
  ⟨_, _, rfl, handleSelectCount_idempotent srcTwoPages 9 2 st0 _ _ rfl⟩
